import Mathlib

/-!
Verification development for the chunked map-reduce pipeline of the
datacube-ui repository (files `apps/coastal_change/tasks.py` and
`apps/water_detection/tasks.py`).

The Python tasks are shallowly embedded as pure Lean functions:

* per-pixel raster values are rationals (the xarray operations that the
  claims mention — `+=` on `total_data` / `total_clean`, division for
  `normalized_data` — act pointwise, so one pixel cell models them);
* Python dicts used for chunk metadata are finite maps `String → Option Int`,
  with `dict.update` embedded as key-wise overwrite;
* functions that can raise (list indexing on an empty list, dict key lookup)
  return `Except PyError _` or `Option _`;
* side effects (data fetches, file writes, the atomic progress-counter
  increment, task-status updates) are reified as an output `List Eff`.
-/

namespace DatacubeUI

/-- Python dict used for chunk metadata, as a finite map from keys to values
(values abstracted to integers: the claims only concern which value a key
holds after merging, not the value type). -/
abbrev Metadata := String → Option Int

/-- The empty metadata dict (`metadata = {}`). -/
def emptyMetadata : Metadata := fun _ => none

/-- Embedding of Python `d.update(u)`: key-wise overwrite, keys of `u` win. -/
def pyUpdate (d u : Metadata) : Metadata :=
  fun k => match u k with
  | some v => some v
  | none => d k

/-- One pixel cell of the water-detection accumulator cube: `total_data`,
`total_clean` and the derived `normalized_data` band (spec §3,
RunningAccumulator). -/
structure WaterCell where
  total_data : ℚ
  total_clean : ℚ
  normalized_data : ℚ
  deriving DecidableEq, Repr

/-- Return value of `processing_task` / the recombiners: the tuple
`(path, metadata, {'geo_chunk_id': g, 'time_chunk_id': t})`. -/
structure ChunkOut where
  path : String
  metadata : Metadata
  geo_chunk_id : Nat
  time_chunk_id : Nat

/-- Python exceptions that the embedded code can raise. -/
inductive PyError where
  /-- raised by `lst[i]` when `i` is out of range. -/
  | indexError
  /-- raised by `d[k]` when `k` is absent. -/
  | keyError
  deriving DecidableEq, Repr

/-- Reified side effects of the pipeline stages. -/
inductive Eff where
  /-- a call to the data-access API for sub-range number `i` of a chunk. -/
  | fetchData (i : Nat)
  /-- a file written at `path` (netcdf artifact or animation frame). -/
  | writeFile (path : String)
  /-- the atomic increment `task.scenes_processed = F(..) + 1; task.save()`. -/
  | increment
  /-- a call to `task.update_status(status, msg)`. -/
  | updateStatus (status msg : String)
  /-- the assignment `task.complete = True`. -/
  | setComplete
  /-- the assignment `task.total_scenes = n`. -/
  | setTotalScenes (n : Nat)
  /-- the assignment `task.scenes_processed = n`. -/
  | setScenesProcessed (n : Nat)
  deriving DecidableEq, Repr

/-- Artifact path of one processed chunk:
`os.path.join(task.get_temp_path(), chunk_id + ".nc")` with
`chunk_id = "_".join([str(geo_chunk_id), str(time_chunk_id)])`
(water_detection tasks.py lines 210 and 258, coastal_change lines 225 and 269). -/
def artifact_path (tempPath : String) (geo_chunk_id time_chunk_id : Nat) : String :=
  tempPath ++ "/" ++ toString geo_chunk_id ++ "_" ++ toString time_chunk_id ++ ".nc"

/-- Artifact path written by the geographic recombiner:
`os.path.join(task.get_temp_path(), "recombined_geo_{}.nc".format(time_chunk_id))`
(water_detection tasks.py line 310, coastal_change line 314). -/
def geo_recombined_path (tempPath : String) (time_chunk_id : Nat) : String :=
  tempPath ++ "/recombined_geo_" ++ toString time_chunk_id ++ ".nc"

/-- Per-step animation artifact path written by `processing_task`:
`"animation_{}_{}.nc".format(str(geo_chunk_id), str(base_index + time_index))`
(water_detection tasks.py line 247). -/
def animation_step_path (tempPath : String) (geo_chunk_id stepIndex : Nat) : String :=
  tempPath ++ "/animation_" ++ toString geo_chunk_id ++ "_" ++ toString stepIndex ++ ".nc"

/-- Lexicographic comparison of character lists by Unicode code point, the
order Python uses to compare `str` values. -/
def charsLe : List Char → List Char → Bool
  | [], _ => true
  | _ :: _, [] => false
  | a :: as, b :: bs => if a = b then charsLe as bs else decide (a < b)

/-- Python string comparison `a <= b` (lexicographic by code point). -/
def strLeB (a b : String) : Bool :=
  charsLe a.data b.data

/-- Stable insertion of a chunk tuple into a list sorted ascending by the
path component, the sort key of `sorted(chunks, key=lambda x: x[0])`. -/
def orderedInsertPath (x : ChunkOut) : List ChunkOut → List ChunkOut
  | [] => [x]
  | y :: ys => if strLeB y.path x.path then y :: orderedInsertPath x ys else x :: y :: ys

/-- Embedding of Python `sorted(chunks, key=lambda x: x[0])` where `x[0]` is
the artifact path string (water_detection tasks.py line 335, coastal_change
line 337): a stable sort ascending by path. -/
def sortByPath (l : List ChunkOut) : List ChunkOut :=
  l.foldr orderedInsertPath []

/-! ## Geographic recombiner

Embedding of `recombine_geographic_chunks` (water_detection tasks.py lines
278-313, coastal_change lines 289-317; the two are identical in everything
the claims touch).  The Python code filters `None` chunk results and then
immediately evaluates `total_chunks[0][2]['geo_chunk_id']`; on an all-`None`
group the filtered list is empty and `total_chunks[0]` raises `IndexError`.
`task.combine_metadata` lives on the task model (not under the analysed
files), so it is taken as a parameter; the spatial artifact merge and the
optional animation-frame rendering do not affect the returned tuple and are
represented by the written artifact path. -/

/-- Embedding of `recombine_geographic_chunks`: filter out `None` siblings,
dereference the head of the filtered list for the chunk ids (raising
`IndexError` when the filtered list is empty), fold the metadata with the
task combiner, and write one artifact keyed by the time-chunk id. -/
def recombine_geographic_chunks (combine_metadata : Metadata → Metadata → Metadata)
    (tempPath : String) (chunks : List (Option ChunkOut)) :
    Except PyError (ChunkOut × List Eff) :=
  let total_chunks := chunks.filterMap id
  match total_chunks with
  | [] => .error .indexError
  | c0 :: _ =>
    let metadata := total_chunks.foldl (fun m c => combine_metadata m c.metadata) emptyMetadata
    let path := geo_recombined_path tempPath c0.time_chunk_id
    .ok (⟨path, metadata, c0.geo_chunk_id, c0.time_chunk_id⟩, [Eff.writeFile path])

/-! ## Temporal recombiner

Embedding of `recombine_time_chunks` (water_detection tasks.py lines
317-385; coastal_change lines 320-350 shares the sort key and the metadata
merge).  The inputs are the geo-recombined tuples; the code filters `None`
entries and sorts by `x[0]`, the artifact path string. -/

/-- Processing order of the temporal recombiner: drop `None` entries, then
sort the surviving tuples ascending by their path string
(`sorted(chunks, key=lambda x: x[0])`). -/
def recombine_time_sorted (chunks : List (Option ChunkOut)) : List ChunkOut :=
  sortByPath (chunks.filterMap id)

/-- Metadata produced by the temporal recombiner: starting from `{}`, run
`metadata.update(chunk[1])` over the chunks in processing order
(water_detection tasks.py line 370, coastal_change line 344). -/
def recombine_time_metadata (chunks : List (Option ChunkOut)) : Metadata :=
  (recombine_time_sorted chunks).foldl (fun m c => pyUpdate m c.metadata) emptyMetadata

/-- Value that the last chunk of a processing order contributes for a key:
a later chunk that binds the key shadows every earlier one. -/
def lastValueFor : List ChunkOut → String → Option Int
  | [], _ => none
  | c :: t, k =>
    match lastValueFor t k with
    | some v => some v
    | none => c.metadata k

/-- Embedding of the inner `combine_intermediates(dataset, dataset_intermediate)`
of `recombine_time_chunks` (water_detection tasks.py lines 341-349): the
intermediate accumulates `total_data` and `total_clean` and recomputes
`normalized_data` as their ratio. -/
def combine_intermediates (dataset dataset_intermediate : WaterCell) : WaterCell :=
  let td := dataset_intermediate.total_data + dataset.total_data
  let tc := dataset_intermediate.total_clean + dataset.total_clean
  { total_data := td, total_clean := tc, normalized_data := td / tc }

/-- Data fold of `recombine_time_chunks` (water_detection tasks.py lines
368-377): the first chunk in processing order becomes the running
`combined_data` unchanged; every later chunk is folded in with
`combine_intermediates(data, combined_data)`. -/
def recombine_time_fold : List WaterCell → Option WaterCell
  | [] => none
  | c :: rest => some (rest.foldl (fun combined data => combine_intermediates data combined) c)

/-! ## Chunk processor (iterative mode, water_detection)

Embedding of `processing_task` (water_detection tasks.py lines 186-262).
The function first checks `os.path.exists(task.get_temp_path())` and returns
`None` when the temporary directory is gone; then it iterates the time
sub-ranges, fetching each one, skipping (`continue`) sub-ranges whose fetch
yields no data, folding the rest into the running accumulator via
`perform_timeseries_analysis`, optionally writing a per-step animation
artifact, and performing the atomic `scenes_processed` increment; after the
loop it returns `None` when the accumulator never received a contribution
and otherwise writes the chunk artifact and returns the result tuple.

A fetched sub-range is modelled as `Option WaterCell`: `none` covers both
`data is None` and `'time' not in data`; a `some` cell is the per-pixel
contribution of the sub-range after the (out-of-scope, configuration
supplied) classification function — the spec treats analysis functions as
opaque pure callables, so fetch and classification are composed into the
oracle input list. -/

/-- Modelled from the spec: `perform_timeseries_analysis`
(utils/dc_utilities.py, which is not among the analysed source files) folds
one step into the running accumulator (spec §3 RunningAccumulator and §4.4:
`total_data` and `total_clean` accumulate additively and `normalized_data`
is recomputed as their ratio; the accumulator is created on the first
contribution). -/
def perform_timeseries_analysis (step : WaterCell) (intermediate_product : Option WaterCell) :
    WaterCell :=
  match intermediate_product with
  | none => { total_data := step.total_data, total_clean := step.total_clean,
              normalized_data := step.total_data / step.total_clean }
  | some acc => combine_intermediates step acc

/-- Task-model context read by `processing_task`: whether the temporary
directory exists, its path, the configured time chunk size
(`task.get_chunk_size()['time']` with the `None → 1` fallback), whether an
animated product was requested, and the task metadata reporter
`task.metadata_from_dataset` (task-model code outside the analysed files,
taken as a parameter). -/
structure TaskCtx where
  tempExists : Bool
  tempPath : String
  sizeT : Nat
  animated : Bool
  mdStep : Metadata → WaterCell → Metadata

/-- Loop body of `processing_task` over the time sub-ranges
(water_detection tasks.py lines 231-253): fetch each sub-range, `continue`
on an empty fetch, otherwise fold the accumulator, update the metadata,
optionally write the animation step artifact, and increment
`scenes_processed`. -/
def processLoop (ctx : TaskCtx) (geo_chunk_id base_index : Nat) :
    List (Option WaterCell) → Nat → Option WaterCell → Metadata → List Eff →
    Option WaterCell × Metadata × List Eff
  | [], _, water_analysis, metadata, effs => (water_analysis, metadata, effs)
  | f :: rest, i, water_analysis, metadata, effs =>
    let effs := effs ++ [Eff.fetchData i]
    match f with
    | none => processLoop ctx geo_chunk_id base_index rest (i + 1) water_analysis metadata effs
    | some data =>
      let analysis := perform_timeseries_analysis data water_analysis
      let metadata := ctx.mdStep metadata data
      let effs := if ctx.animated then
          effs ++ [Eff.writeFile (animation_step_path ctx.tempPath geo_chunk_id (base_index + i))]
        else effs
      let effs := effs ++ [Eff.increment]
      processLoop ctx geo_chunk_id base_index rest (i + 1) (some analysis) metadata effs

/-- Embedding of `processing_task` (water_detection tasks.py lines 186-262):
returns the optional result tuple together with the reified side effects. -/
def processing_task (ctx : TaskCtx) (geo_chunk_id time_chunk_id : Nat)
    (fetches : List (Option WaterCell)) : Option ChunkOut × List Eff :=
  if ctx.tempExists = false then (none, [])
  else
    let base_index := ctx.sizeT * time_chunk_id
    match processLoop ctx geo_chunk_id base_index fetches 0 none emptyMetadata [] with
    | (none, _, effs) => (none, effs)
    | (some _, metadata, effs) =>
      let path := artifact_path ctx.tempPath geo_chunk_id time_chunk_id
      (some ⟨path, metadata, geo_chunk_id, time_chunk_id⟩, effs ++ [Eff.writeFile path])

/-! ## Chunker (coastal_change, batch mode)

Embedding of the temporal-chunking branch of `perform_task_chunking`
(coastal_change tasks.py lines 140-148).  A date is modelled as a pair
(year, ordinal within the year); `grouped_dates` is the insertion-ordered
dict produced by grouping the dates by year. -/

/-- Years in order of first appearance, each kept once (the key order of a
Python dict filled by insertion). -/
def distinctKeys (l : List Nat) : List Nat :=
  l.foldl (fun acc y => if y ∈ acc then acc else acc ++ [y]) []

/-- Modelled from the spec: `group_datetimes_by_year` (utils/dc_chunker.py,
which is not among the analysed source files) "groups dates by calendar
period" (spec §4.1): an insertion-ordered dict keyed by the distinct years
of the input dates, each year mapped to its dates. -/
def group_datetimes_by_year (dates : List (Nat × Nat)) : List (Nat × List (Nat × Nat)) :=
  (distinctKeys (dates.map Prod.fst)).map (fun y => (y, dates.filter (fun d => decide (d.1 = y))))

/-- Python dict lookup `d[k]` on an insertion-ordered dict, `none` standing
for a raised `KeyError`. -/
def dictLookup {β : Type} (d : List (Nat × β)) (k : Nat) : Option β :=
  (d.find? (fun p => decide (p.1 = k))).map Prod.snd

/-- Embedding of the time-chunk construction of coastal_change
`perform_task_chunking` (tasks.py lines 142-148): with no animated product,
one chunk pairing the start-year and end-year date groups; with an animated
product, `grouped_dates.pop(time_start)` followed by one chunk
`[initial_year, grouped_dates[year]]` per remaining year.  A missing year
key raises `KeyError`, modelled as `none`. -/
def coastal_time_chunks (grouped_dates : List (Nat × List (Nat × Nat)))
    (time_start time_end : Nat) (animationNone : Bool) :
    Option (List (List (List (Nat × Nat)))) :=
  if animationNone then
    match dictLookup grouped_dates time_start, dictLookup grouped_dates time_end with
    | some s, some e => some [[s, e]]
    | _, _ => none
  else
    match dictLookup grouped_dates time_start with
    | some initial_year =>
      some ((grouped_dates.filter (fun p => decide (p.1 ≠ time_start))).map
        (fun p => [initial_year, p.2]))
    | none => none

/-! ## Orchestration stages and null propagation

Embeddings of `validate_parameters`, the null-propagation heads of
`perform_task_chunking` and `start_chunk_processing`
(coastal_change tasks.py lines 76-108, 126-127, 170-171;
water_detection tasks.py lines 120-121, 155-156). -/

/-- Parameter dict fields the validation stage can rewrite. -/
structure Params where
  measurements : List String
  deriving DecidableEq, Repr

/-- Measurement fallback list assigned when
`dc.validate_measurements` fails (coastal_change tasks.py line 105). -/
def fallbackMeasurements : List String :=
  ["blue", "green", "red", "nir", "swir1", "swir2", "pixel_qa"]

/-- Embedding of coastal_change `validate_parameters` (tasks.py lines
76-108): for each of the two required periods (start year, end year) list
the acquisitions; if either has fewer than one, set `task.complete`, record
the ERROR status and return `None`; otherwise record the WAIT status, apply
the measurement fallback when the measurement set is unsupported, and
return the parameters.  The acquisition counts and the measurement check
are the data-access oracle inputs. -/
def validate_parameters (acqStart acqEnd : Nat) (measurementsValid : Bool)
    (params : Params) : Option Params × List Eff :=
  if acqStart < 1 then
    (none, [Eff.setComplete,
            Eff.updateStatus "ERROR"
              "There must be at least one acquisition in both the start and ending year."])
  else if acqEnd < 1 then
    (none, [Eff.setComplete,
            Eff.updateStatus "ERROR"
              "There must be at least one acquisition in both the start and ending year."])
  else
    let params := if measurementsValid then params
      else { params with measurements := fallbackMeasurements }
    (some params, [Eff.updateStatus "WAIT" "Validated parameters."])

/-- Geo/time chunk plan assembled by `perform_task_chunking`. -/
structure ChunkDetails where
  geographic_chunks : List Nat
  time_chunks : List (List (List (Nat × Nat)))

/-- Embedding of coastal_change `perform_task_chunking` (tasks.py lines
111-154): `None` input returns `None` immediately with no side effects;
otherwise the dates are grouped by year, the time chunks built (a missing
year key raising `KeyError`), and the WAIT status recorded.  The geographic
chunks (built by utils/dc_chunker.py, outside the analysed files) are an
oracle input. -/
def perform_task_chunking (params : Option Params) (geographic_chunks : List Nat)
    (dates : List (Nat × Nat)) (time_start time_end : Nat) (animationNone : Bool) :
    Except PyError (Option ChunkDetails) × List Eff :=
  match params with
  | none => (.ok none, [])
  | some _ =>
    match coastal_time_chunks (group_datetimes_by_year dates) time_start time_end animationNone with
    | none => (.error .keyError, [])
    | some time_chunks =>
      (.ok (some ⟨geographic_chunks, time_chunks⟩),
       [Eff.updateStatus "WAIT" "Chunked parameter set."])

/-- Embedding of the head of `start_chunk_processing` (coastal_change
tasks.py lines 157-198): `None` input returns `None` immediately with no
side effects; otherwise `total_scenes` is assigned
`len(geographic_chunks) * len(time_chunks) * (chunk time size or 1)`,
`scenes_processed` is reset to `0`, and the WAIT status recorded before the
fan-out pipeline is dispatched. -/
def start_chunk_processing (chunk_details : Option ChunkDetails) (sizeT : Nat) :
    Option Bool × List Eff :=
  match chunk_details with
  | none => (none, [])
  | some cd =>
    (some true,
     [Eff.setTotalScenes (cd.geographic_chunks.length * cd.time_chunks.length * sizeT),
      Eff.setScenesProcessed 0,
      Eff.updateStatus "WAIT" "Starting processing."])

/-! ## Progress-counter state machine

Model of the shared `AnalysisTask` progress counters once
`start_chunk_processing` has run: `total_scenes` is assigned
`G * T * S` (number of geographic chunks times number of time chunks times
the configured chunk time size, coastal_change tasks.py lines 178-180,
water_detection lines 163-165), `scenes_processed` is reset to `0`, and
afterwards the only writers are the chunk workers, each performing
`task.scenes_processed = F(scenes_processed) + 1; task.save()` — an atomic
storage-layer increment — once per data-bearing time sub-range of its
`(geo, time)` chunk (at most `subCount (g, t) ≤ S` sub-ranges per chunk,
water_detection lines 231-253).

`processing_task` is declared with `acks_late=True` (water_detection line
186, coastal_change line 201), so delivery is at-least-once: a chunk whose
worker dies before acknowledging is redelivered and its loop re-runs from
the start.  `ReachableOnce` is the exactly-once restriction (every chunk
executed at most once); `ReachableAL` additionally allows a redelivery,
which resets the per-execution sub-range cursor of one chunk. -/

/-- Progress counters of the task record plus, per `(geo, time)` chunk, the
number of increments performed by the current execution of that chunk. -/
structure CounterState where
  total_scenes : Nat
  scenes_processed : Nat
  execDone : Nat × Nat → Nat

/-- Reachable counter states when every chunk is executed at most once:
initialisation by `start_chunk_processing`, then one atomic increment per
data-bearing sub-range of each in-range chunk. -/
inductive ReachableOnce (G T S : Nat) (subCount : Nat × Nat → Nat) : CounterState → Prop
  | init : ReachableOnce G T S subCount ⟨G * T * S, 0, fun _ => 0⟩
  | increment (s : CounterState) (p : Nat × Nat) (hg : p.1 < G) (ht : p.2 < T)
      (hcap : s.execDone p < subCount p) (hr : ReachableOnce G T S subCount s) :
      ReachableOnce G T S subCount
        ⟨s.total_scenes, s.scenes_processed + 1,
         Function.update s.execDone p (s.execDone p + 1)⟩

/-- Reachable counter states under the at-least-once delivery that
`acks_late=True` provides: as `ReachableOnce`, plus a redelivery step that
restarts one chunk execution (its sub-range cursor resets, already
performed increments stay in `scenes_processed`). -/
inductive ReachableAL (G T S : Nat) (subCount : Nat × Nat → Nat) : CounterState → Prop
  | init : ReachableAL G T S subCount ⟨G * T * S, 0, fun _ => 0⟩
  | increment (s : CounterState) (p : Nat × Nat) (hg : p.1 < G) (ht : p.2 < T)
      (hcap : s.execDone p < subCount p) (hr : ReachableAL G T S subCount s) :
      ReachableAL G T S subCount
        ⟨s.total_scenes, s.scenes_processed + 1,
         Function.update s.execDone p (s.execDone p + 1)⟩
  | redeliver (s : CounterState) (p : Nat × Nat) (hr : ReachableAL G T S subCount s) :
      ReachableAL G T S subCount
        ⟨s.total_scenes, s.scenes_processed, Function.update s.execDone p 0⟩

/-- Concrete overrun state: one geographic chunk, one time chunk, chunk
time size one, one data-bearing sub-range; the chunk is executed, the
unacknowledged message is redelivered, and the chunk is executed again. -/
def overrunState : CounterState :=
  { total_scenes := 1
    scenes_processed := 2
    execDone :=
      Function.update
        (Function.update (Function.update (fun _ => 0) ((0 : Nat), (0 : Nat)) 1)
          ((0 : Nat), (0 : Nat)) 0)
        ((0 : Nat), (0 : Nat)) 1 }

/-! ## Concrete inputs used by the counterexamples and witnesses -/

/-- Geo-recombined result of temporal chunk 2 (artifact written by the
geographic recombiner under the task temp directory), reporting one
metadata key. -/
def geoResultTwo : ChunkOut :=
  { path := geo_recombined_path "/datacube/ui_results/temp" 2
    metadata := fun k => if k = "clean_pixels" then some 2 else none
    geo_chunk_id := 0
    time_chunk_id := 2 }

/-- Geo-recombined result of temporal chunk 10, reporting the same metadata
key as `geoResultTwo`. -/
def geoResultTen : ChunkOut :=
  { path := geo_recombined_path "/datacube/ui_results/temp" 10
    metadata := fun k => if k = "clean_pixels" then some 10 else none
    geo_chunk_id := 0
    time_chunk_id := 10 }

/-- Acquisition dates spanning three calendar years (one date per year). -/
def threeYearDates : List (Nat × Nat) :=
  [(2000, 1), (2001, 1), (2002, 1)]

/-- Task context with an existing temporary directory, chunk time size 1,
no animated product, and a metadata reporter that adds nothing. -/
def ctxLive : TaskCtx :=
  { tempExists := true, tempPath := "/datacube/ui_results/temp", sizeT := 1,
    animated := false, mdStep := fun m _ => m }

/-- Task context whose temporary directory has been removed. -/
def ctxGone : TaskCtx :=
  { tempExists := false, tempPath := "/datacube/ui_results/temp", sizeT := 1,
    animated := false, mdStep := fun m _ => m }

/-! ## Claim theorems -/

/-- C1 (the code at the failing input): for a fan-in group in which every
sibling chunk result is `None`, `recombine_geographic_chunks` does not
surface an explicit all-empty-group signal — after filtering, the subscript
`total_chunks[0]` raises an unchecked `IndexError`. -/
theorem c1_all_empty_group_raises_index_error :
    recombine_geographic_chunks pyUpdate "/datacube/ui_results/temp" [none, none] =
      Except.error PyError.indexError := rfl

/-- C2 (the code at the failing input): the temporal recombiner sorts by the
artifact path string, so the geo-recombined results of temporal chunks 2 and
10 are processed in the order 10, 2 — not in ascending numeric index order. -/
theorem c2_processing_order_not_ascending :
    (recombine_time_sorted [some geoResultTwo, some geoResultTen]).map ChunkOut.time_chunk_id
        = [10, 2] ∧
    ([10, 2] : List Nat) ≠ [2, 10] := by
  exact ⟨by decide, by decide⟩

/-- C10: when the task temporary directory does not exist, `processing_task`
returns `None` immediately — no data fetch, no artifact write, and no
`scenes_processed` increment happens. -/
theorem c10_missing_temp_dir_silent_skip (ctx : TaskCtx) (geo_chunk_id time_chunk_id : Nat)
    (fetches : List (Option WaterCell)) (h : ctx.tempExists = false) :
    processing_task ctx geo_chunk_id time_chunk_id fetches = (none, []) := by
  unfold processing_task
  simp [h]

/-- C10 witness: the silent skip evaluated on a concrete context whose
temporary directory is gone and a data-bearing fetch list. -/
theorem c10_missing_temp_dir_silent_skip_witness :
    ctxGone.tempExists = false ∧
      processing_task ctxGone 3 7 [some ⟨1, 1, 1⟩] = (none, []) :=
  ⟨rfl, c10_missing_temp_dir_silent_skip ctxGone 3 7 [some ⟨1, 1, 1⟩] rfl⟩

/-! ### C6: temporal metadata merge -/

/-- Folding `dict.update` over a list of chunks resolves every key to the
contribution of the last chunk in fold order that binds it, falling back to
the initial dict. -/
lemma foldl_pyUpdate_lookup (l : List ChunkOut) (m : Metadata) (k : String) :
    l.foldl (fun acc c => pyUpdate acc c.metadata) m k =
      match lastValueFor l k with
      | some v => some v
      | none => m k := by
  induction l generalizing m with
  | nil => rfl
  | cons c t ih =>
    simp only [List.foldl_cons, lastValueFor]
    rw [ih]
    cases h : lastValueFor t k with
    | some v => rfl
    | none =>
      cases hc : c.metadata k with
      | some w => simp [pyUpdate, hc]
      | none => simp [pyUpdate, hc]

/-- C6 (amended): the temporal recombiner's metadata is the key-wise
overwrite merge of the inputs taken in its processing order (ascending by
artifact path): every key resolves to the value contributed by the last
chunk in that order that binds it — never to an additive combination. -/
theorem c6_metadata_overwrite_last_processed (chunks : List (Option ChunkOut)) (k : String) :
    recombine_time_metadata chunks k = lastValueFor (recombine_time_sorted chunks) k := by
  unfold recombine_time_metadata
  rw [foldl_pyUpdate_lookup]
  cases h : lastValueFor (recombine_time_sorted chunks) k with
  | none => simp [emptyMetadata]
  | some v => rfl

/-- C6 counterexample: temporal chunks 2 and 10 both bind the key
`clean_pixels`; because the processing order is path-sorted (10 before 2),
the merged value is the one from the earlier temporal chunk 2, not from the
later temporal chunk 10 as the claim requires. -/
theorem c6_counterexample_earlier_temporal_chunk_wins :
    geoResultTwo.time_chunk_id < geoResultTen.time_chunk_id ∧
    geoResultTwo.metadata "clean_pixels" = some 2 ∧
    geoResultTen.metadata "clean_pixels" = some 10 ∧
    recombine_time_metadata [some geoResultTwo, some geoResultTen] "clean_pixels" = some 2 ∧
    (some 2 : Option Int) ≠ some 10 :=
  ⟨by decide, by decide, by decide, by decide, by decide⟩

/-! ### C3: batch-mode temporal chunk count -/

/-- Dict lookup on a cons cell. -/
lemma dictLookup_cons {β : Type} (a : Nat × β) (t : List (Nat × β)) (k : Nat) :
    dictLookup (a :: t) k = if a.1 = k then some a.2 else dictLookup t k := by
  by_cases h : a.1 = k <;> simp [dictLookup, List.find?_cons, h]

/-- A key that occurs among the dict keys has a value. -/
lemma dictLookup_of_mem {β : Type} (d : List (Nat × β)) (k : Nat)
    (hk : k ∈ d.map Prod.fst) : ∃ v, dictLookup d k = some v := by
  induction d with
  | nil => simp at hk
  | cons a t ih =>
    rw [dictLookup_cons]
    by_cases hak : a.1 = k
    · exact ⟨a.2, by simp [hak]⟩
    · have hk2 : k ∈ t.map Prod.fst := by
        simp only [List.map_cons, List.mem_cons] at hk
        rcases hk with h | h
        · exact absurd h.symm hak
        · exact h
      obtain ⟨v, hv⟩ := ih hk2
      exact ⟨v, by simp [hak, hv]⟩

/-- Removing the entries with one present key from a dict with nodup keys
removes exactly one entry. -/
lemma filter_ne_key_length {β : Type} (d : List (Nat × β)) (k : Nat)
    (hnd : (d.map Prod.fst).Nodup) (hk : k ∈ d.map Prod.fst) :
    (d.filter (fun p => decide (p.1 ≠ k))).length = d.length - 1 := by
  induction d with
  | nil => simp at hk
  | cons a t ih =>
    simp only [List.map_cons, List.nodup_cons] at hnd
    obtain ⟨ha, hnd⟩ := hnd
    by_cases hak : a.1 = k
    · have hall : ∀ p ∈ t, ¬p.1 = k := by
        intro p hp hpk
        have hknot : k ∉ t.map Prod.fst := hak ▸ ha
        exact hknot (hpk ▸ List.mem_map_of_mem Prod.fst hp)
      have hfix : t.filter (fun p => decide (p.1 ≠ k)) = t := by
        rw [List.filter_eq_self]
        intro p hp
        simp only [ne_eq, decide_eq_true_eq]
        exact hall p hp
      rw [List.filter_cons]
      rw [if_neg (by simp [hak])]
      rw [hfix]
      simp
    · have hk2 : k ∈ t.map Prod.fst := by
        simp only [List.map_cons, List.mem_cons] at hk
        rcases hk with h | h
        · exact absurd h.symm hak
        · exact h
      have hpos : 0 < t.length := by
        cases t
        · simp at hk2
        · simp
      rw [List.filter_cons]
      rw [if_pos (by simp [hak])]
      simp only [List.length_cons]
      rw [ih hnd hk2]
      omega

/-- Membership in the running fold that collects first appearances. -/
lemma mem_foldl_distinct (l : List Nat) (acc : List Nat) (x : Nat) :
    x ∈ l.foldl (fun acc y => if y ∈ acc then acc else acc ++ [y]) acc ↔
      x ∈ acc ∨ x ∈ l := by
  induction l generalizing acc with
  | nil => simp
  | cons y t ih =>
    simp only [List.foldl_cons]
    by_cases h : y ∈ acc
    · rw [if_pos h, ih]
      constructor
      · rintro (hx | hx)
        · exact Or.inl hx
        · exact Or.inr (List.mem_cons_of_mem _ hx)
      · rintro (hx | hx)
        · exact Or.inl hx
        · rcases List.mem_cons.mp hx with rfl | hx
          · exact Or.inl h
          · exact Or.inr hx
    · rw [if_neg h, ih]
      simp only [List.mem_append, List.mem_singleton, List.mem_cons]
      tauto

/-- The distinct-key list preserves membership. -/
lemma mem_distinctKeys (l : List Nat) (x : Nat) : x ∈ distinctKeys l ↔ x ∈ l := by
  unfold distinctKeys
  rw [mem_foldl_distinct]
  simp

/-- The fold that collects first appearances never duplicates a key. -/
lemma nodup_foldl_distinct (l : List Nat) (acc : List Nat) (hacc : acc.Nodup) :
    (l.foldl (fun acc y => if y ∈ acc then acc else acc ++ [y]) acc).Nodup := by
  induction l generalizing acc with
  | nil => exact hacc
  | cons y t ih =>
    simp only [List.foldl_cons]
    by_cases h : y ∈ acc
    · rw [if_pos h]; exact ih acc hacc
    · rw [if_neg h]
      refine ih _ ?_
      simp [List.nodup_append, hacc, h]

/-- The distinct-key list has no duplicates. -/
lemma distinctKeys_nodup (l : List Nat) : (distinctKeys l).Nodup :=
  nodup_foldl_distinct l [] List.nodup_nil

/-- The keys of the year grouping are the distinct years of the dates. -/
lemma group_datetimes_by_year_keys (dates : List (Nat × Nat)) :
    (group_datetimes_by_year dates).map Prod.fst = distinctKeys (dates.map Prod.fst) := by
  unfold group_datetimes_by_year
  rw [List.map_map]
  exact List.map_id _

/-- C3 (amended): batch-mode temporal chunking over dates with `P` distinct
calendar years produces `P - 1` chunks `[anchorPeriod, otherPeriod]` when an
animated product is requested; with animation `none` it produces exactly one
chunk `[firstPeriod, lastPeriod]` regardless of `P`. -/
theorem c3_batch_chunk_count (dates : List (Nat × Nat)) (time_start time_end : Nat)
    (hs : time_start ∈ dates.map Prod.fst) (he : time_end ∈ dates.map Prod.fst) :
    (∃ tcs, coastal_time_chunks (group_datetimes_by_year dates) time_start time_end false
        = some tcs ∧ tcs.length = (group_datetimes_by_year dates).length - 1) ∧
    (∃ tcs, coastal_time_chunks (group_datetimes_by_year dates) time_start time_end true
        = some tcs ∧ tcs.length = 1) := by
  have hkeys := group_datetimes_by_year_keys dates
  have hnd : ((group_datetimes_by_year dates).map Prod.fst).Nodup := by
    rw [hkeys]; exact distinctKeys_nodup _
  have hsg : time_start ∈ (group_datetimes_by_year dates).map Prod.fst := by
    rw [hkeys, mem_distinctKeys]; exact hs
  have heg : time_end ∈ (group_datetimes_by_year dates).map Prod.fst := by
    rw [hkeys, mem_distinctKeys]; exact he
  obtain ⟨vs, hvs⟩ := dictLookup_of_mem _ time_start hsg
  obtain ⟨ve, hve⟩ := dictLookup_of_mem _ time_end heg
  constructor
  · refine ⟨((group_datetimes_by_year dates).filter
        (fun p => decide (p.1 ≠ time_start))).map (fun p => [vs, p.2]), ?_, ?_⟩
    · simp [coastal_time_chunks, hvs]
    · rw [List.length_map]
      exact filter_ne_key_length _ time_start hnd hsg
  · refine ⟨[[vs, ve]], ?_, rfl⟩
    simp [coastal_time_chunks, hvs, hve]

/-- C3 counterexample: three distinct years with no animated product yield
one temporal chunk, not `3 - 1 = 2`. -/
theorem c3_counterexample_three_periods_one_chunk :
    (group_datetimes_by_year threeYearDates).length = 3 ∧
    (coastal_time_chunks (group_datetimes_by_year threeYearDates) 2000 2002 true).map
        List.length = some 1 ∧
    (1 : Nat) ≠ 3 - 1 :=
  ⟨by decide, by decide, by decide⟩

/-- C3 witness: the amended chunk count evaluated on the three-year input. -/
theorem c3_batch_chunk_count_witness :
    2000 ∈ threeYearDates.map Prod.fst ∧ 2002 ∈ threeYearDates.map Prod.fst ∧
    ((∃ tcs, coastal_time_chunks (group_datetimes_by_year threeYearDates) 2000 2002 false
        = some tcs ∧ tcs.length = (group_datetimes_by_year threeYearDates).length - 1) ∧
     (∃ tcs, coastal_time_chunks (group_datetimes_by_year threeYearDates) 2000 2002 true
        = some tcs ∧ tcs.length = 1)) :=
  ⟨by decide, by decide, c3_batch_chunk_count threeYearDates 2000 2002 (by decide) (by decide)⟩

/-! ### C5: iterative accumulation algebra -/

/-- Folding chunks into a running intermediate adds their `total_data`. -/
lemma foldl_combine_total_data (l : List WaterCell) (a : WaterCell) :
    (l.foldl (fun combined data => combine_intermediates data combined) a).total_data =
      a.total_data + (l.map WaterCell.total_data).sum := by
  induction l generalizing a with
  | nil => simp
  | cons x t ih =>
    simp only [List.foldl_cons, List.map_cons, List.sum_cons]
    rw [ih]
    simp only [combine_intermediates]
    ring

/-- Folding chunks into a running intermediate adds their `total_clean`. -/
lemma foldl_combine_total_clean (l : List WaterCell) (a : WaterCell) :
    (l.foldl (fun combined data => combine_intermediates data combined) a).total_clean =
      a.total_clean + (l.map WaterCell.total_clean).sum := by
  induction l generalizing a with
  | nil => simp
  | cons x t ih =>
    simp only [List.foldl_cons, List.map_cons, List.sum_cons]
    rw [ih]
    simp only [combine_intermediates]
    ring

/-- After at least one combine step the `normalized_data` band is exactly
the ratio of the accumulated totals. -/
lemma foldl_combine_normalized (l : List WaterCell) (a : WaterCell) (hl : l ≠ []) :
    (l.foldl (fun combined data => combine_intermediates data combined) a).normalized_data =
      (l.foldl (fun combined data => combine_intermediates data combined) a).total_data /
        (l.foldl (fun combined data => combine_intermediates data combined) a).total_clean := by
  induction l generalizing a with
  | nil => exact absurd rfl hl
  | cons x t ih =>
    cases t with
    | nil => simp [combine_intermediates]
    | cons y u =>
      simp only [List.foldl_cons] at ih ⊢
      exact ih (combine_intermediates x a) (by simp)

/-- C5: in iterative mode the temporal recombiner's running result, after
each fold step, carries `total_data` and `total_clean` equal to the sums of
the chunks folded so far, and its `normalized_data` equals the ratio of
those sums recomputed from scratch — provided every input chunk itself has
a consistent derived band (which §4.2 establishes for chunk artifacts). -/
theorem c5_fold_totals_and_ratio (cells : List WaterCell)
    (hnorm : ∀ c ∈ cells, c.normalized_data = c.total_data / c.total_clean)
    (n : Nat) (h1 : 1 ≤ n) (h2 : n ≤ cells.length) :
    ∃ a, recombine_time_fold (cells.take n) = some a ∧
      a.total_data = ((cells.take n).map WaterCell.total_data).sum ∧
      a.total_clean = ((cells.take n).map WaterCell.total_clean).sum ∧
      a.normalized_data = ((cells.take n).map WaterCell.total_data).sum /
        ((cells.take n).map WaterCell.total_clean).sum := by
  cases cells with
  | nil =>
    simp only [List.length_nil] at h2
    omega
  | cons c cs =>
    cases n with
    | zero => omega
    | succ m =>
      simp only [List.take_succ_cons]
      refine ⟨(cs.take m).foldl (fun combined data => combine_intermediates data combined) c,
        rfl, ?_, ?_, ?_⟩
      · rw [foldl_combine_total_data]
        simp
      · rw [foldl_combine_total_clean]
        simp
      · cases htake : cs.take m with
        | nil =>
          simp only [htake, List.foldl_nil, List.map_cons, List.map_nil, List.sum_cons,
            List.sum_nil, add_zero]
          exact hnorm c (List.mem_cons_self c cs)
        | cons d ds =>
          rw [← htake]
          rw [foldl_combine_normalized _ _ (by rw [htake]; simp)]
          rw [foldl_combine_total_data, foldl_combine_total_clean]
          simp

/-- C5 witness: the fold totals evaluated on a concrete two-chunk sequence
after the second step. -/
theorem c5_fold_totals_and_ratio_witness :
    (∀ c ∈ [(⟨1, 1, 1 / 1⟩ : WaterCell), ⟨2, 1, 2 / 1⟩],
        c.normalized_data = c.total_data / c.total_clean) ∧
    (1 ≤ 2 ∧ 2 ≤ ([(⟨1, 1, 1 / 1⟩ : WaterCell), ⟨2, 1, 2 / 1⟩]).length) ∧
    (∃ a, recombine_time_fold (([(⟨1, 1, 1 / 1⟩ : WaterCell), ⟨2, 1, 2 / 1⟩]).take 2) = some a ∧
      a.total_data = ((([(⟨1, 1, 1 / 1⟩ : WaterCell), ⟨2, 1, 2 / 1⟩]).take 2).map
        WaterCell.total_data).sum ∧
      a.total_clean = ((([(⟨1, 1, 1 / 1⟩ : WaterCell), ⟨2, 1, 2 / 1⟩]).take 2).map
        WaterCell.total_clean).sum ∧
      a.normalized_data = ((([(⟨1, 1, 1 / 1⟩ : WaterCell), ⟨2, 1, 2 / 1⟩]).take 2).map
        WaterCell.total_data).sum /
        ((([(⟨1, 1, 1 / 1⟩ : WaterCell), ⟨2, 1, 2 / 1⟩]).take 2).map
          WaterCell.total_clean).sum) := by
  have hnorm : ∀ c ∈ [(⟨1, 1, 1 / 1⟩ : WaterCell), ⟨2, 1, 2 / 1⟩],
      c.normalized_data = c.total_data / c.total_clean := by
    intro c hc
    rcases List.mem_cons.mp hc with rfl | hc
    · rfl
    · rcases List.mem_cons.mp hc with rfl | hc
      · rfl
      · simp at hc
  exact ⟨hnorm, ⟨by decide, by decide⟩,
    c5_fold_totals_and_ratio _ hnorm 2 (by decide) (by decide)⟩

/-! ### C7 and C9: chunk-processor loop behaviour -/

/-- The loop result is empty exactly when the accumulator entered empty and
every remaining fetch was empty: an empty sub-range is skipped, never fatal,
and a non-empty one always feeds the accumulator. -/
lemma processLoop_none_iff (ctx : TaskCtx) (geo base : Nat)
    (fetches : List (Option WaterCell)) (i : Nat) (acc : Option WaterCell)
    (md : Metadata) (effs : List Eff) :
    (processLoop ctx geo base fetches i acc md effs).1 = none ↔
      acc = none ∧ ∀ f ∈ fetches, f = none := by
  induction fetches generalizing i acc md effs with
  | nil => simp [processLoop]
  | cons f t ih =>
    cases f with
    | none =>
      simp only [processLoop]
      rw [ih]
      simp
    | some d =>
      simp only [processLoop]
      rw [ih]
      simp

/-- The loop performs one atomic increment per non-empty fetch. -/
lemma processLoop_increment_count (ctx : TaskCtx) (geo base : Nat)
    (fetches : List (Option WaterCell)) (i : Nat) (acc : Option WaterCell)
    (md : Metadata) (effs : List Eff) :
    ((processLoop ctx geo base fetches i acc md effs).2.2.countP (fun e => e == Eff.increment)) =
      effs.countP (fun e => e == Eff.increment) + fetches.countP (fun f => f.isSome) := by
  induction fetches generalizing i acc md effs with
  | nil => simp [processLoop]
  | cons f t ih =>
    cases f with
    | none =>
      simp only [processLoop]
      rw [ih]
      simp [List.countP_append, List.countP_cons]
    | some d =>
      simp only [processLoop]
      rw [ih]
      cases ha : ctx.animated <;>
        simp [ha, List.countP_append, List.countP_cons] <;> omega

/-- C7: with the temporary directory present, `processing_task` returns
`None` exactly when every time sub-range's fetch was empty (empty
sub-ranges are skipped, not fatal), it performs one `scenes_processed`
increment per data-bearing sub-range, and whenever some sub-range bears
data it returns a result carrying the chunk artifact path. -/
theorem c7_skip_empty_subranges (ctx : TaskCtx) (h : ctx.tempExists = true)
    (geo_chunk_id time_chunk_id : Nat) (fetches : List (Option WaterCell)) :
    ((processing_task ctx geo_chunk_id time_chunk_id fetches).1 = none ↔
        ∀ f ∈ fetches, f = none) ∧
    ((processing_task ctx geo_chunk_id time_chunk_id fetches).2.countP
        (fun e => e == Eff.increment) = fetches.countP (fun f => f.isSome)) ∧
    ((¬∀ f ∈ fetches, f = none) →
      (processing_task ctx geo_chunk_id time_chunk_id fetches).1.map ChunkOut.path =
        some (artifact_path ctx.tempPath geo_chunk_id time_chunk_id)) := by
  have hmain := processLoop_none_iff ctx geo_chunk_id (ctx.sizeT * time_chunk_id) fetches 0
    none emptyMetadata []
  have hcount := processLoop_increment_count ctx geo_chunk_id (ctx.sizeT * time_chunk_id)
    fetches 0 none emptyMetadata []
  unfold processing_task
  simp only [h, Bool.true_eq_false, if_false]
  rcases hpl : processLoop ctx geo_chunk_id (ctx.sizeT * time_chunk_id) fetches 0
      none emptyMetadata [] with ⟨acc, md, effs⟩
  rw [hpl] at hmain hcount
  simp only [List.countP_nil, Nat.zero_add] at hcount
  cases acc with
  | none =>
    have hall : ∀ f ∈ fetches, f = none := by simpa using hmain
    refine ⟨?_, ?_, ?_⟩
    · exact iff_of_true rfl hall
    · exact hcount
    · intro hne
      exact absurd hall hne
  | some a =>
    have hsome : ∃ x ∈ fetches, ¬x = none := by simpa using hmain
    refine ⟨?_, ?_, ?_⟩
    · refine iff_of_false (fun hh => Option.noConfusion hh) ?_
      intro hall
      obtain ⟨x, hx, hxne⟩ := hsome
      exact absurd (hall x hx) hxne
    · show (effs ++ [Eff.writeFile (artifact_path ctx.tempPath geo_chunk_id time_chunk_id)]).countP
          (fun e => e == Eff.increment) = fetches.countP (fun f => f.isSome)
      rw [List.countP_append]
      simpa using hcount
    · intro hne
      rfl

/-- C7 witness: one empty and one data-bearing sub-range — the empty one is
skipped, one increment is performed, and the artifact path is produced. -/
theorem c7_skip_empty_subranges_witness :
    ctxLive.tempExists = true ∧
    (((processing_task ctxLive 0 0 [none, some ⟨3, 4, 1⟩]).1 = none ↔
        ∀ f ∈ [none, some (⟨3, 4, 1⟩ : WaterCell)], f = none) ∧
     ((processing_task ctxLive 0 0 [none, some ⟨3, 4, 1⟩]).2.countP
        (fun e => e == Eff.increment) =
          ([none, some (⟨3, 4, 1⟩ : WaterCell)]).countP (fun f => f.isSome)) ∧
     ((¬∀ f ∈ [none, some (⟨3, 4, 1⟩ : WaterCell)], f = none) →
       (processing_task ctxLive 0 0 [none, some ⟨3, 4, 1⟩]).1.map ChunkOut.path =
         some (artifact_path ctxLive.tempPath 0 0))) :=
  ⟨rfl, c7_skip_empty_subranges ctxLive rfl 0 0 [none, some ⟨3, 4, 1⟩]⟩

/-- A returned result always carries the deterministic artifact path built
from the temp directory and the two chunk ids. -/
lemma processing_task_path (ctx : TaskCtx) (geo_chunk_id time_chunk_id : Nat)
    (fetches : List (Option WaterCell)) (r : ChunkOut)
    (h : (processing_task ctx geo_chunk_id time_chunk_id fetches).1 = some r) :
    r.path = artifact_path ctx.tempPath geo_chunk_id time_chunk_id := by
  simp only [processing_task] at h
  by_cases hex : ctx.tempExists = false
  · rw [if_pos hex] at h
    exact absurd h (by simp)
  · rw [if_neg hex] at h
    rcases hpl : processLoop ctx geo_chunk_id (ctx.sizeT * time_chunk_id) fetches 0
        none emptyMetadata [] with ⟨acc, md, effs⟩
    rw [hpl] at h
    cases acc with
    | none => exact Option.noConfusion h
    | some a =>
      have hr := Option.some.inj h
      rw [← hr]

/-- C9: the artifact path of `processing_task` is a deterministic function
of the task temporary directory and the two chunk ids alone — two
executions for the same `(geo_chunk_id, time_chunk_id)` under the same temp
directory write the identical path, whatever data each run fetched. -/
theorem c9_deterministic_artifact_path (ctx1 ctx2 : TaskCtx)
    (hT : ctx1.tempPath = ctx2.tempPath) (geo_chunk_id time_chunk_id : Nat)
    (fetches1 fetches2 : List (Option WaterCell)) (r1 r2 : ChunkOut)
    (h1 : (processing_task ctx1 geo_chunk_id time_chunk_id fetches1).1 = some r1)
    (h2 : (processing_task ctx2 geo_chunk_id time_chunk_id fetches2).1 = some r2) :
    r1.path = artifact_path ctx1.tempPath geo_chunk_id time_chunk_id ∧
    r1.path = r2.path := by
  have p1 := processing_task_path ctx1 geo_chunk_id time_chunk_id fetches1 r1 h1
  have p2 := processing_task_path ctx2 geo_chunk_id time_chunk_id fetches2 r2 h2
  exact ⟨p1, by rw [p1, p2, hT]⟩

/-- C9 witness: two executions over different fetch data produce results on
the identical deterministic path. -/
theorem c9_deterministic_artifact_path_witness :
    ctxLive.tempPath = ctxLive.tempPath ∧
    (processing_task ctxLive 0 0 [some ⟨3, 4, 1⟩]).1 =
      some ⟨artifact_path ctxLive.tempPath 0 0, emptyMetadata, 0, 0⟩ ∧
    (processing_task ctxLive 0 0 [some ⟨5, 6, 1⟩, none]).1 =
      some ⟨artifact_path ctxLive.tempPath 0 0, emptyMetadata, 0, 0⟩ ∧
    ((⟨artifact_path ctxLive.tempPath 0 0, emptyMetadata, 0, 0⟩ : ChunkOut).path =
        artifact_path ctxLive.tempPath 0 0 ∧
     (⟨artifact_path ctxLive.tempPath 0 0, emptyMetadata, 0, 0⟩ : ChunkOut).path =
        (⟨artifact_path ctxLive.tempPath 0 0, emptyMetadata, 0, 0⟩ : ChunkOut).path) :=
  ⟨rfl, rfl, rfl,
    c9_deterministic_artifact_path ctxLive ctxLive rfl 0 0 [some ⟨3, 4, 1⟩]
      [some ⟨5, 6, 1⟩, none] _ _ rfl rfl⟩

/-! ### C8: validation failure halts the pipeline -/

/-- C8: when a required period has fewer than one acquisition,
`validate_parameters` records the ERROR status with a message and returns
`None`; `perform_task_chunking` and `start_chunk_processing` each turn a
`None` input into a `None` output with an empty effect list — the pipeline
halts with the task in the ERROR state. -/
theorem c8_validation_error_halts_pipeline (acqStart acqEnd : Nat)
    (measurementsValid : Bool) (params : Params) (h : acqStart < 1 ∨ acqEnd < 1) :
    (validate_parameters acqStart acqEnd measurementsValid params).1 = none ∧
    Eff.updateStatus "ERROR"
        "There must be at least one acquisition in both the start and ending year." ∈
      (validate_parameters acqStart acqEnd measurementsValid params).2 ∧
    (∀ geographic_chunks dates time_start time_end animationNone,
      perform_task_chunking none geographic_chunks dates time_start time_end animationNone
        = (.ok none, [])) ∧
    (∀ sizeT, start_chunk_processing none sizeT = (none, [])) := by
  refine ⟨?_, ?_, fun _ _ _ _ _ => rfl, fun _ => rfl⟩
  · unfold validate_parameters
    rcases h with h | h
    · rw [if_pos h]
    · by_cases h1 : acqStart < 1
      · rw [if_pos h1]
      · rw [if_neg h1, if_pos h]
  · unfold validate_parameters
    rcases h with h | h
    · rw [if_pos h]
      simp
    · by_cases h1 : acqStart < 1
      · rw [if_pos h1]
        simp
      · rw [if_neg h1, if_pos h]
        simp

/-- C8 witness: a start year with zero acquisitions halts the concrete
pipeline in the ERROR state. -/
theorem c8_validation_error_halts_pipeline_witness :
    ((0 : Nat) < 1 ∨ (5 : Nat) < 1) ∧
    ((validate_parameters 0 5 true ⟨["red"]⟩).1 = none ∧
     Eff.updateStatus "ERROR"
         "There must be at least one acquisition in both the start and ending year." ∈
       (validate_parameters 0 5 true ⟨["red"]⟩).2 ∧
     (∀ geographic_chunks dates time_start time_end animationNone,
       perform_task_chunking none geographic_chunks dates time_start time_end animationNone
         = (.ok none, [])) ∧
     (∀ sizeT, start_chunk_processing none sizeT = (none, []))) :=
  ⟨Or.inl (by decide),
    c8_validation_error_halts_pipeline 0 5 true ⟨["red"]⟩ (Or.inl (by decide))⟩

/-! ### C4: progress-counter invariant -/

/-- Invariant of the exactly-once counter machine: `total_scenes` keeps its
initial value, `scenes_processed` equals the sum of the per-chunk increment
counts over the chunk grid, and no chunk outruns its sub-range count. -/
lemma reachableOnce_invariant (G T S : Nat) (subCount : Nat × Nat → Nat)
    (s : CounterState) (hr : ReachableOnce G T S subCount s) :
    s.total_scenes = G * T * S ∧
    s.scenes_processed = ∑ p ∈ Finset.range G ×ˢ Finset.range T, s.execDone p ∧
    ∀ p, s.execDone p ≤ subCount p := by
  induction hr with
  | init => exact ⟨rfl, by simp, fun p => Nat.zero_le _⟩
  | increment s p hg ht hcap hr ih =>
    obtain ⟨htot, hsum, hbound⟩ := ih
    have hmem : p ∈ Finset.range G ×ˢ Finset.range T := by
      rw [Finset.mem_product, Finset.mem_range, Finset.mem_range]
      exact ⟨hg, ht⟩
    refine ⟨htot, ?_, ?_⟩
    · show s.scenes_processed + 1 =
        ∑ q ∈ Finset.range G ×ˢ Finset.range T, Function.update s.execDone p (s.execDone p + 1) q
      rw [Finset.sum_update_of_mem hmem, Finset.sdiff_singleton_eq_erase, hsum,
        ← Finset.add_sum_erase _ s.execDone hmem]
      omega
    · intro q
      show Function.update s.execDone p (s.execDone p + 1) q ≤ subCount q
      by_cases hq : q = p
      · subst hq
        rw [Function.update_same]
        omega
      · rw [Function.update_noteq hq]
        exact hbound q

/-- C4 (amended): after `start_chunk_processing` fixes
`total_scenes = G * T * S` and resets `scenes_processed` to `0`, and as long
as every chunk executes at most once, the atomically incremented
`scenes_processed` never exceeds the unchanged `total_scenes`.  (Under the
at-least-once redelivery that `acks_late` permits, the bound can be
overrun — see the counterexample.) -/
theorem c4_counter_invariant_exactly_once (G T S : Nat) (subCount : Nat × Nat → Nat)
    (hS : ∀ p, subCount p ≤ S) (s : CounterState)
    (hr : ReachableOnce G T S subCount s) :
    s.scenes_processed ≤ s.total_scenes ∧ s.total_scenes = G * T * S := by
  obtain ⟨htot, hsum, hbound⟩ := reachableOnce_invariant G T S subCount s hr
  refine ⟨?_, htot⟩
  rw [htot, hsum]
  calc ∑ p ∈ Finset.range G ×ˢ Finset.range T, s.execDone p
      ≤ (Finset.range G ×ˢ Finset.range T).card • S :=
        Finset.sum_le_card_nsmul _ _ S (fun p _ => le_trans (hbound p) (hS p))
    _ = G * T * S := by
        rw [Finset.card_product, Finset.card_range, Finset.card_range, smul_eq_mul]

/-- C4 witness: the invariant evaluated on the smallest grid from the
initial state. -/
theorem c4_counter_invariant_exactly_once_witness :
    (∀ p : Nat × Nat, (fun _ => 1) p ≤ 1) ∧
    ((⟨1 * 1 * 1, 0, fun _ => 0⟩ : CounterState).scenes_processed ≤
        (⟨1 * 1 * 1, 0, fun _ => 0⟩ : CounterState).total_scenes ∧
      (⟨1 * 1 * 1, 0, fun _ => 0⟩ : CounterState).total_scenes = 1 * 1 * 1) :=
  ⟨fun _ => le_refl 1,
    c4_counter_invariant_exactly_once 1 1 1 (fun _ => 1) (fun _ => le_refl 1) _
      ReachableOnce.init⟩

/-- C4 counterexample: under at-least-once delivery a redelivered chunk
increments again, and the counter overruns `total_scenes` — here a
1×1 grid with one sub-range reaches `scenes_processed = 2 > 1`. -/
theorem c4_counterexample_redelivery_overruns :
    ReachableAL 1 1 1 (fun _ => 1) overrunState ∧
    overrunState.total_scenes < overrunState.scenes_processed := by
  constructor
  · have h0 : ReachableAL 1 1 1 (fun _ => 1) ⟨1 * 1 * 1, 0, fun _ => 0⟩ :=
      ReachableAL.init
    have h1 := ReachableAL.increment _ ((0 : Nat), (0 : Nat)) (by decide) (by decide)
      (by decide) h0
    have h2 := ReachableAL.redeliver _ ((0 : Nat), (0 : Nat)) h1
    have h3 := ReachableAL.increment _ ((0 : Nat), (0 : Nat)) (by decide) (by decide)
      (by simp [Function.update]) h2
    exact h3
  · decide

end DatacubeUI
